import Mathlib

/-!
Verification of the Azure retail-prices exporter core
(src/api/azureapi.py and src/api/flatten.py) against its
natural-language specification.

The Python code works on JSON dictionaries and pandas DataFrames; here
each record shape is a Lean structure over the fields the code consumes,
prices are exact rationals, a value that can be missing (absent JSON key
or pandas NaN) is an `Option`, and fallible operations return `Except`.
-/

/-- Entry of the nested `savingsPlan` list of a raw catalog item
(fields consumed by `get_prices` in src/api/azureapi.py, lines 162-168). -/
structure SavingsPlanEntry where
  unitPrice : ℚ
  retailPrice : ℚ
  term : String
deriving DecidableEq, Repr

/-- Raw catalog item as returned by one page of the price API, restricted
to the fields the code consumes (spec section 6). `savingsPlan = none`
models a JSON object without the `savingsPlan` key. -/
structure RawItem where
  productName : String
  skuName : String
  meterName : String
  meterId : String
  armRegionName : String
  armSkuName : String
  tierMinimumUnits : String
  unitPrice : ℚ
  retailPrice : ℚ
  type : String
  effectiveStartDate : String
  effectiveEndDate : Option String
  reservationTerm : Option String
  savingsPlan : Option (List SavingsPlanEntry)
deriving DecidableEq, Repr

/-- Normalized price record: one row of the DataFrame built by
`get_prices` (src/api/azureapi.py line 176). The `savingsPlan` key never
survives normalization (`del output_record["savingsPlan"]`, line 169), so
the structure has no such field. -/
structure NormalizedRecord where
  productName : String
  skuName : String
  meterName : String
  meterId : String
  armRegionName : String
  armSkuName : String
  tierMinimumUnits : String
  unitPrice : ℚ
  retailPrice : ℚ
  type : String
  effectiveStartDate : String
  effectiveEndDate : Option String
  reservationTerm : Option String
deriving DecidableEq, Repr

/-- Copy of all scalar fields of a raw item into a normalized record,
modelling `input_record.copy()` on the no-savings-plan path where the
record is appended unchanged (src/api/azureapi.py line 173). -/
def RawItem.asRecord (r : RawItem) : NormalizedRecord where
  productName := r.productName
  skuName := r.skuName
  meterName := r.meterName
  meterId := r.meterId
  armRegionName := r.armRegionName
  armSkuName := r.armSkuName
  tierMinimumUnits := r.tierMinimumUnits
  unitPrice := r.unitPrice
  retailPrice := r.retailPrice
  type := r.type
  effectiveStartDate := r.effectiveStartDate
  effectiveEndDate := r.effectiveEndDate
  reservationTerm := r.reservationTerm

/-- Records emitted for one raw item by the savings-plan transform loop of
`get_prices` (src/api/azureapi.py lines 159-173): one record per nested
savings-plan entry, overriding type, unitPrice, retailPrice and
reservationTerm; or the item itself when there is no nested list. -/
def transform_record (r : RawItem) : List NormalizedRecord :=
  match r.savingsPlan with
  | some savingsPlans =>
      savingsPlans.map (fun sp_year =>
        { r.asRecord with
            type := "SavingsPlans"
            unitPrice := sp_year.unitPrice
            retailPrice := sp_year.retailPrice
            reservationTerm := some sp_year.term })
  | none => [r.asRecord]

/-- Savings-plan transform of `get_prices` over the whole fetched item
list (src/api/azureapi.py lines 157-173): the output-record list built by
appending the emitted records of each input record in order. -/
def get_prices_transform (input_records : List RawItem) : List NormalizedRecord :=
  input_records.foldl (fun output_records r => output_records ++ transform_record r) []

theorem get_prices_transform_cons (r : RawItem) (rs : List RawItem) :
    get_prices_transform (r :: rs) = transform_record r ++ get_prices_transform rs := by
  have main : ∀ (l : List RawItem) (acc : List NormalizedRecord),
      l.foldl (fun output_records r => output_records ++ transform_record r) acc
        = acc ++ l.foldl (fun output_records r => output_records ++ transform_record r) [] := by
    intro l
    induction l with
    | nil => intro acc; simp
    | cons x xs ih =>
        intro acc
        rw [List.foldl_cons, List.foldl_cons, ih (acc ++ transform_record x),
          ih ([] ++ transform_record x)]
        simp
  show List.foldl _ _ _ = _
  rw [List.foldl_cons, main rs]
  simp [get_prices_transform]

theorem get_prices_transform_append (l₁ l₂ : List RawItem) :
    get_prices_transform (l₁ ++ l₂) = get_prices_transform l₁ ++ get_prices_transform l₂ := by
  induction l₁ with
  | nil => simp [get_prices_transform]
  | cons x xs ih =>
      rw [List.cons_append, get_prices_transform_cons, get_prices_transform_cons, ih,
        List.append_assoc]

/-- Sample savings-plan entries used by concrete witnesses. -/
def spEntry1y : SavingsPlanEntry := { unitPrice := 2, retailPrice := 3, term := "1 Year" }

/-- Second sample savings-plan entry. -/
def spEntry3y : SavingsPlanEntry := { unitPrice := 1, retailPrice := 5, term := "3 Years" }

/-- Sample raw item carrying a nested savings-plan list of length 2. -/
def sampleSPItem : RawItem where
  productName := "VM A"
  skuName := "S1"
  meterName := "M1"
  meterId := "meter1"
  armRegionName := "westeurope"
  armSkuName := "Standard_S1"
  tierMinimumUnits := "0.0"
  unitPrice := 7
  retailPrice := 7
  type := "Consumption"
  effectiveStartDate := "2024-01-01"
  effectiveEndDate := none
  reservationTerm := none
  savingsPlan := some [spEntry1y, spEntry3y]

/-- Sample raw item with no nested savings-plan field. -/
def samplePlainItem : RawItem where
  productName := "VM B"
  skuName := "S2"
  meterName := "M2"
  meterId := "meter2"
  armRegionName := "eastus"
  armSkuName := "Standard_S2"
  tierMinimumUnits := "0.0"
  unitPrice := 4
  retailPrice := 4
  type := "Consumption"
  effectiveStartDate := "2024-01-01"
  effectiveEndDate := none
  reservationTerm := none
  savingsPlan := none

/-- C1: a raw item with a nested savings-plan list of length N yields exactly N
normalized records, each tagged type "SavingsPlans" with unitPrice, retailPrice
and reservationTerm taken from its own nested entry and every other field copied
from the parent item (the emitted records, being `NormalizedRecord`s, carry no
savingsPlan field); an item without the nested list is emitted unchanged as one
record; and within a stream the emitted records replace the item in place. -/
theorem normalization_expands_savings_plans (pre post : List RawItem) (r : RawItem) :
    get_prices_transform (pre ++ r :: post)
      = get_prices_transform pre ++ transform_record r ++ get_prices_transform post
    ∧ (∀ savingsPlans : List SavingsPlanEntry, r.savingsPlan = some savingsPlans →
        (transform_record r).length = savingsPlans.length
        ∧ ∀ (i : ℕ) (sp_year : SavingsPlanEntry), savingsPlans[i]? = some sp_year →
            ∃ out : NormalizedRecord, (transform_record r)[i]? = some out
              ∧ out.type = "SavingsPlans"
              ∧ out.unitPrice = sp_year.unitPrice
              ∧ out.retailPrice = sp_year.retailPrice
              ∧ out.reservationTerm = some sp_year.term
              ∧ out.productName = r.productName
              ∧ out.skuName = r.skuName
              ∧ out.meterName = r.meterName
              ∧ out.meterId = r.meterId
              ∧ out.armRegionName = r.armRegionName
              ∧ out.armSkuName = r.armSkuName
              ∧ out.tierMinimumUnits = r.tierMinimumUnits
              ∧ out.effectiveStartDate = r.effectiveStartDate
              ∧ out.effectiveEndDate = r.effectiveEndDate)
    ∧ (r.savingsPlan = none → transform_record r = [r.asRecord]) := by
  refine ⟨?_, ?_, ?_⟩
  · rw [get_prices_transform_append, get_prices_transform_cons, List.append_assoc]
  · intro savingsPlans hsp
    rw [transform_record, hsp]
    refine ⟨List.length_map _ _, ?_⟩
    intro i sp_year hi
    refine ⟨{ r.asRecord with
        type := "SavingsPlans"
        unitPrice := sp_year.unitPrice
        retailPrice := sp_year.retailPrice
        reservationTerm := some sp_year.term },
      ?_, rfl, rfl, rfl, rfl, rfl, rfl, rfl, rfl, rfl, rfl, rfl, rfl, rfl⟩
    rw [List.getElem?_map, hi]
    rfl
  · intro hnone
    rw [transform_record, hnone]

/-- Witness for C1 at the concrete items `sampleSPItem` (two nested entries)
and `samplePlainItem` (no nested list). -/
theorem normalization_expands_savings_plans_witness :
    (transform_record sampleSPItem).length = 2
    ∧ (∃ out : NormalizedRecord, (transform_record sampleSPItem)[1]? = some out
        ∧ out.type = "SavingsPlans"
        ∧ out.unitPrice = spEntry3y.unitPrice
        ∧ out.retailPrice = spEntry3y.retailPrice
        ∧ out.reservationTerm = some spEntry3y.term
        ∧ out.productName = sampleSPItem.productName
        ∧ out.skuName = sampleSPItem.skuName
        ∧ out.meterName = sampleSPItem.meterName
        ∧ out.meterId = sampleSPItem.meterId
        ∧ out.armRegionName = sampleSPItem.armRegionName
        ∧ out.armSkuName = sampleSPItem.armSkuName
        ∧ out.tierMinimumUnits = sampleSPItem.tierMinimumUnits
        ∧ out.effectiveStartDate = sampleSPItem.effectiveStartDate
        ∧ out.effectiveEndDate = sampleSPItem.effectiveEndDate)
    ∧ transform_record samplePlainItem = [samplePlainItem.asRecord] := by
  obtain ⟨-, h2, -⟩ := normalization_expands_savings_plans [] [] sampleSPItem
  obtain ⟨hlen, hidx⟩ := h2 [spEntry1y, spEntry3y] rfl
  obtain ⟨-, -, h3⟩ := normalization_expands_savings_plans [] [] samplePlainItem
  exact ⟨hlen, hidx 1 spEntry3y rfl, h3 rfl⟩

/-- Fixed catalog endpoint of `get_price_data` (src/api/azureapi.py line 84). -/
def base_url : String := "https://prices.azure.com/api/retail/prices"

/-- Default API version string (src/api/azureapi.py line 22). -/
def API_VERSION : String := "2023-01-01-preview"

/-- Initial request URL built by `get_price_data` (src/api/azureapi.py
lines 85-91). The f-string on line 86 ends in `'{currency_code}''`, so the
built URL closes the currency code with two apostrophes; the filter is
appended after an ampersand only when non-empty (Python truthiness). -/
def initial_api_url (currency_code : String) (results_filter : String) : String :=
  let api_url := base_url ++ "?api-version=" ++ API_VERSION
    ++ "&currencyCode='" ++ currency_code ++ "''"
  if results_filter ≠ "" then api_url ++ "&" ++ results_filter else api_url

/-- Modelled from the spec: the URL format stated in spec section 6,
`<catalog-base-url>?api-version=<version>&currencyCode='<code>'[&<filterExpression>]`,
with a single apostrophe closing the currency code. Written from the spec
words only, for comparison with `initial_api_url`. -/
def spec_initial_api_url (currency_code : String) (results_filter : String) : String :=
  let u := base_url ++ "?api-version=" ++ API_VERSION
    ++ "&currencyCode='" ++ currency_code ++ "'"
  if results_filter ≠ "" then u ++ "&" ++ results_filter else u

/-- Parsed JSON body of one catalog page (spec section 6):
an Items array and a nullable NextPageLink. -/
structure ApiPage where
  Items : List RawItem
  NextPageLink : Option String
deriving DecidableEq, Repr

/-- Pagination loop of `get_price_data` (src/api/azureapi.py lines 109-134)
over an abstract server mapping a URL to a parsed page or a fetch/parse
error. `fuel` is the number of loop iterations still allowed by
`page_counter < max_pages`; the Python `while next_page_link` treats both
`None` and the empty string as false. Returns the accumulated item list
(or the first propagated error) together with the number of GET requests
issued. -/
def get_price_data_loop (server : String → Except String ApiPage)
    (link : Option String) (fuel : Nat) (sku_list : List RawItem) :
    Except String (List RawItem) × Nat :=
  match fuel with
  | 0 => (.ok sku_list, 0)
  | fuel' + 1 =>
    match link with
    | none => (.ok sku_list, 0)
    | some url =>
      if url = "" then (.ok sku_list, 0)
      else
        match server url with
        | .error e => (.error e, 1)
        | .ok page =>
          let rest := get_price_data_loop server page.NextPageLink fuel' (sku_list ++ page.Items)
          (rest.1, rest.2 + 1)

/-- Paginated fetch `get_price_data` (src/api/azureapi.py lines 32-134):
build the initial URL, then follow the continuation chain. -/
def get_price_data (server : String → Except String ApiPage)
    (currency_code : String) (results_filter : String) (max_pages : Nat) :
    Except String (List RawItem) × Nat :=
  get_price_data_loop server (some (initial_api_url currency_code results_filter)) max_pages []

/-- C3: the pagination loop issues one GET per page, appends the items of the
fetched page to the accumulator in order, advances to the page NextPageLink,
and stops exactly on a null link or an exhausted page budget; with
maxPages = 1 it issues exactly one request even when NextPageLink is non-null,
and on a three-page chain whose last page has a null link it issues exactly
three requests and returns the items of all three pages in order. -/
theorem pagination_loop_spec (server : String → Except String ApiPage) :
    (∀ (url : String) (page : ApiPage) (fuel : Nat) (acc : List RawItem),
        url ≠ "" → server url = .ok page →
        get_price_data_loop server (some url) (fuel + 1) acc
          = ((get_price_data_loop server page.NextPageLink fuel (acc ++ page.Items)).1,
             (get_price_data_loop server page.NextPageLink fuel (acc ++ page.Items)).2 + 1))
    ∧ (∀ (fuel : Nat) (acc : List RawItem),
        get_price_data_loop server none fuel acc = (.ok acc, 0))
    ∧ (∀ (link : Option String) (acc : List RawItem),
        get_price_data_loop server link 0 acc = (.ok acc, 0))
    ∧ (∀ (url : String) (page : ApiPage) (acc : List RawItem),
        url ≠ "" → server url = .ok page →
        get_price_data_loop server (some url) 1 acc = (.ok (acc ++ page.Items), 1))
    ∧ (∀ (u1 u2 u3 : String) (p1 p2 p3 : ApiPage) (max_pages : Nat),
        u1 ≠ "" → u2 ≠ "" → u3 ≠ "" →
        server u1 = .ok p1 → server u2 = .ok p2 → server u3 = .ok p3 →
        p1.NextPageLink = some u2 → p2.NextPageLink = some u3 → p3.NextPageLink = none →
        3 ≤ max_pages →
        get_price_data_loop server (some u1) max_pages []
          = (.ok (p1.Items ++ p2.Items ++ p3.Items), 3)) := by
  have step : ∀ (url : String) (page : ApiPage) (fuel : Nat) (acc : List RawItem),
      url ≠ "" → server url = .ok page →
      get_price_data_loop server (some url) (fuel + 1) acc
        = ((get_price_data_loop server page.NextPageLink fuel (acc ++ page.Items)).1,
           (get_price_data_loop server page.NextPageLink fuel (acc ++ page.Items)).2 + 1) := by
    intro url page fuel acc hne hsrv
    simp [get_price_data_loop, hne, hsrv]
  have stopNone : ∀ (fuel : Nat) (acc : List RawItem),
      get_price_data_loop server none fuel acc = (.ok acc, 0) := by
    intro fuel acc
    cases fuel <;> simp [get_price_data_loop]
  have stopFuel : ∀ (link : Option String) (acc : List RawItem),
      get_price_data_loop server link 0 acc = (.ok acc, 0) := by
    intro link acc
    simp [get_price_data_loop]
  refine ⟨step, stopNone, stopFuel, ?_, ?_⟩
  · intro url page acc hne hsrv
    rw [show (1 : Nat) = 0 + 1 from rfl, step url page 0 acc hne hsrv, stopFuel]
  · intro u1 u2 u3 p1 p2 p3 max_pages h1 h2 h3 s1 s2 s3 n1 n2 n3 hmp
    obtain ⟨k, rfl⟩ : ∃ k, max_pages = k + 3 := ⟨max_pages - 3, by omega⟩
    rw [show k + 3 = (k + 2) + 1 from rfl, step u1 p1 (k + 2) [] h1 s1, n1]
    rw [show k + 2 = (k + 1) + 1 from rfl, step u2 p2 (k + 1) _ h2 s2, n2]
    rw [show k + 1 = k + 1 from rfl, step u3 p3 k _ h3 s3, n3]
    rw [stopNone]
    simp

/-- Concrete three-page server used by the pagination witness. -/
def pageServer : String → Except String ApiPage := fun url =>
  if url = "page1" then .ok { Items := [sampleSPItem], NextPageLink := some "page2" }
  else if url = "page2" then .ok { Items := [samplePlainItem], NextPageLink := some "page3" }
  else if url = "page3" then .ok { Items := [], NextPageLink := none }
  else .error "HTTP 404"

/-- Witness for C3: against the concrete three-page server, a page budget of 1
issues exactly one request and returns only the first page, and a budget of 9
issues exactly three requests and returns all items in order. -/
theorem pagination_loop_spec_witness :
    get_price_data_loop pageServer (some "page1") 1 [] = (.ok [sampleSPItem], 1)
    ∧ get_price_data_loop pageServer (some "page1") 9 []
        = (.ok ([sampleSPItem] ++ [samplePlainItem] ++ []), 3) := by
  obtain ⟨-, -, -, hone, hchain⟩ := pagination_loop_spec pageServer
  refine ⟨hone "page1" _ [] (by decide) rfl, ?_⟩
  exact hchain "page1" "page2" "page3" _ _ _ 9 (by decide) (by decide) (by decide)
    rfl rfl rfl rfl rfl rfl (by omega)

/-- C9 (code evaluated at the failing input): for currency "USD" with an empty
filter, the URL actually built by `get_price_data` ends the currencyCode
parameter with two apostrophes, so it is not the single-apostrophe URL the
spec states; a non-empty filter is appended after an ampersand, an empty one
is not, and the loop passes the server-supplied continuation link to the next
request verbatim. -/
theorem initial_url_doubled_apostrophe :
    initial_api_url "USD" ""
      = "https://prices.azure.com/api/retail/prices?api-version=2023-01-01-preview&currencyCode='USD''"
    ∧ initial_api_url "USD" "" ≠ spec_initial_api_url "USD" ""
    ∧ initial_api_url "USD" "$filter=serviceName eq 'Virtual Machines'"
        = initial_api_url "USD" "" ++ "&" ++ "$filter=serviceName eq 'Virtual Machines'" := by
  exact ⟨rfl, by decide, rfl⟩

/-- Retry configuration constants of src/api/azureapi.py lines 27-29
(environment defaults): bounded retry count, exponential backoff factor and
the retryable HTTP status set. -/
def MAX_RETRIES : Nat := 5

/-- Default backoff factor (src/api/azureapi.py line 28). -/
def RETRY_BACKOFF_FACTOR : ℚ := 2

/-- HTTP status codes retried by the adapter (src/api/azureapi.py line 29). -/
def RETRY_STATUS_FORCELIST : List Nat := [429, 500, 502, 503, 504]

/-- Response of one HTTP attempt: status code, optional Retry-After header
value, and the parsed page body (`none` models an unparseable JSON body). -/
structure HttpResponse where
  status : Nat
  retryAfter : Option ℚ
  body : Option ApiPage
deriving DecidableEq, Repr

/-- Error surfaced by a page request: a propagated HTTP error status or a
JSON parse failure. -/
inductive FetchError where
  | httpError (status : Nat)
  | parseError
deriving DecidableEq, Repr

/-- Modelled from the spec: the backoff delay before retry number n of the
retry engine configured in `get_price_data` (src/api/azureapi.py lines 61-74).
The engine itself lives in the urllib3/requests libraries, outside src/; the
spec (section 4.1) and the source comment on line 60 fix its behavior:
exponential backoff with waits 2s, 4s, 8s, 16s, 32s at factor 2.0, so delay
n = factor * 2 ^ (n - 1). -/
def backoffDelay (retryNumber : Nat) : ℚ :=
  RETRY_BACKOFF_FACTOR * 2 ^ (retryNumber - 1)

/-- Modelled from the spec: the delay actually waited before a retry; a 429
response carrying a Retry-After header takes precedence over the computed
backoff (spec section 4.1, configured via respect_retry_after_header on
src/api/azureapi.py line 66). -/
def retryDelay (resp : HttpResponse) (retryNumber : Nat) : ℚ :=
  match resp.status, resp.retryAfter with
  | 429, some t => t
  | _, _ => backoffDelay retryNumber

/-- Modelled from the spec: the transport-level retry loop of the configured
adapter (spec section 4.1; configuration on src/api/azureapi.py lines 61-74).
`responses` gives the server answer to attempt number 0, 1, ...; a response
whose status is in the retryable set is retried until the bounded budget is
exhausted, any other response is returned. Yields the final response or the
propagated HTTP error, the list of waited delays, and the number of attempts
issued. -/
def sendWithRetry (responses : Nat → HttpResponse) :
    Nat → Nat → Except FetchError HttpResponse × List ℚ × Nat
  | retriesLeft, attempt =>
    let resp := responses attempt
    if resp.status ∈ RETRY_STATUS_FORCELIST then
      match retriesLeft with
      | 0 => (.error (.httpError resp.status), [], 1)
      | retriesLeft' + 1 =>
        let d := retryDelay resp (attempt + 1)
        let rest := sendWithRetry responses retriesLeft' (attempt + 1)
        (rest.1, d :: rest.2.1, rest.2.2 + 1)
    else (.ok resp, [], 1)

/-- Modelled from the spec: one page fetch through the retrying session, then
`raise_for_status` and JSON parsing as in src/api/azureapi.py lines 114-122:
a non-2xx final status propagates as an HTTP error, an unparseable body as a
parse error, otherwise the parsed page is returned. -/
def fetchPage (responses : Nat → HttpResponse) :
    Except FetchError ApiPage × List ℚ × Nat :=
  match sendWithRetry responses MAX_RETRIES 0 with
  | (.error e, ds, n) => (.error e, ds, n)
  | (.ok resp, ds, n) =>
    if 200 ≤ resp.status ∧ resp.status < 300 then
      match resp.body with
      | some page => (.ok page, ds, n)
      | none => (.error .parseError, ds, n)
    else (.error (.httpError resp.status), ds, n)

instance {ε α : Type} [DecidableEq ε] [DecidableEq α] : DecidableEq (Except ε α) := fun a b =>
  match a, b with
  | .error e, .error f =>
      if h : e = f then .isTrue (by rw [h]) else .isFalse (by simp [h])
  | .error _, .ok _ => .isFalse (by simp)
  | .ok _, .error _ => .isFalse (by simp)
  | .ok x, .ok y =>
      if h : x = y then .isTrue (by rw [h]) else .isFalse (by simp [h])

/-- C7: a 429 followed by a 200 within the retry budget returns the successful
page, waiting the Retry-After value rather than the computed backoff; 5xx
responses are retried with exponentially growing backoff delays; a run of
retryable statuses exhausting the budget propagates the HTTP error after
MAX_RETRIES + 1 attempts with the exponential delay schedule; a non-retryable
non-2xx response propagates immediately with no retry; and an unparseable 2xx
body propagates a parse error immediately. -/
theorem retry_backoff_spec :
    (∀ (t : ℚ) (page : ApiPage) (junk : Option ApiPage),
        fetchPage (fun n => if n = 0 then ⟨429, some t, junk⟩ else ⟨200, none, some page⟩)
          = (.ok page, [t], 2))
    ∧ (∀ page : ApiPage,
        fetchPage (fun n => if n ≤ 1 then ⟨503, none, none⟩ else ⟨200, none, some page⟩)
          = (.ok page, [2, 4], 3))
    ∧ (∀ s ∈ RETRY_STATUS_FORCELIST,
        fetchPage (fun _ => ⟨s, none, none⟩)
          = (.error (.httpError s), [2, 4, 8, 16, 32], MAX_RETRIES + 1))
    ∧ (∀ (s : Nat) (b : Option ApiPage), s ∉ RETRY_STATUS_FORCELIST →
        ¬(200 ≤ s ∧ s < 300) →
        fetchPage (fun _ => ⟨s, none, b⟩) = (.error (.httpError s), [], 1))
    ∧ (∀ s : Nat, 200 ≤ s → s < 300 →
        fetchPage (fun _ => ⟨s, none, none⟩) = (.error .parseError, [], 1)) := by
  refine ⟨fun t page junk => rfl, ?_, ?_, ?_, ?_⟩
  · intro page
    norm_num [fetchPage, sendWithRetry, retryDelay, backoffDelay,
      RETRY_BACKOFF_FACTOR, RETRY_STATUS_FORCELIST, MAX_RETRIES]
  · intro s hs
    simp only [RETRY_STATUS_FORCELIST, List.mem_cons, List.mem_singleton] at hs
    rcases hs with rfl | rfl | rfl | rfl | rfl | h
    · norm_num [fetchPage, sendWithRetry, retryDelay, backoffDelay,
        RETRY_BACKOFF_FACTOR, RETRY_STATUS_FORCELIST, MAX_RETRIES]
    · norm_num [fetchPage, sendWithRetry, retryDelay, backoffDelay,
        RETRY_BACKOFF_FACTOR, RETRY_STATUS_FORCELIST, MAX_RETRIES]
    · norm_num [fetchPage, sendWithRetry, retryDelay, backoffDelay,
        RETRY_BACKOFF_FACTOR, RETRY_STATUS_FORCELIST, MAX_RETRIES]
    · norm_num [fetchPage, sendWithRetry, retryDelay, backoffDelay,
        RETRY_BACKOFF_FACTOR, RETRY_STATUS_FORCELIST, MAX_RETRIES]
    · norm_num [fetchPage, sendWithRetry, retryDelay, backoffDelay,
        RETRY_BACKOFF_FACTOR, RETRY_STATUS_FORCELIST, MAX_RETRIES]
    · simp at h
  · intro s b hnotin hnot2xx
    have hmem : (s ∈ RETRY_STATUS_FORCELIST) = False := by
      simp only [eq_iff_iff, iff_false]; exact hnotin
    simp only [fetchPage, sendWithRetry, hmem, if_false]
    rw [if_neg hnot2xx]
  · intro s h200 h300
    have hnotin : (s ∈ RETRY_STATUS_FORCELIST) = False := by
      simp only [eq_iff_iff, iff_false, RETRY_STATUS_FORCELIST]
      intro hmem
      simp only [List.mem_cons, List.mem_singleton] at hmem
      rcases hmem with rfl | rfl | rfl | rfl | rfl | hmem
      · omega
      · omega
      · omega
      · omega
      · omega
      · simp at hmem
    simp only [fetchPage, sendWithRetry, hnotin, if_false]
    rw [if_pos ⟨h200, h300⟩]

/-- Witness for C7 at concrete responses: Retry-After of 7 honored before the
successful second attempt; constant 500 exhausts the budget after six
attempts; a 404 fails immediately; a 200 with an unparseable body fails
immediately with a parse error. -/
theorem retry_backoff_spec_witness :
    fetchPage (fun n => if n = 0
        then ⟨429, some 7, none⟩
        else ⟨200, none, some { Items := [samplePlainItem], NextPageLink := none }⟩)
      = (.ok { Items := [samplePlainItem], NextPageLink := none }, [7], 2)
    ∧ fetchPage (fun _ => ⟨500, none, none⟩)
        = (.error (.httpError 500), [2, 4, 8, 16, 32], MAX_RETRIES + 1)
    ∧ fetchPage (fun _ => ⟨404, none, none⟩) = (.error (.httpError 404), [], 1)
    ∧ fetchPage (fun _ => ⟨200, none, none⟩) = (.error .parseError, [], 1) := by
  obtain ⟨h1, -, h3, h4, h5⟩ := retry_backoff_spec
  exact ⟨h1 7 _ none, h3 500 (by decide), h4 404 none (by decide) (by decide),
    h5 200 (by decide) (by decide)⟩

/-- Composite product key of `flatten_prices` (src/api/flatten.py lines 28-30):
the five identity fields joined by a backslash. -/
def productKey (r : NormalizedRecord) : String :=
  r.productName ++ "\\" ++ r.skuName ++ "\\" ++ r.meterName ++ "\\"
    ++ r.tierMinimumUnits ++ "\\" ++ r.armRegionName

/-- Consumption price partition (src/api/flatten.py lines 40-44): key and
retail price of every record of type Consumption. -/
def consumptionRows (records : List NormalizedRecord) : List (String × ℚ) :=
  (records.filter (fun r => r.type == "Consumption")).map (fun r => (productKey r, r.retailPrice))

/-- DevTestConsumption price partition (src/api/flatten.py lines 47-51). -/
def devtestRows (records : List NormalizedRecord) : List (String × ℚ) :=
  (records.filter (fun r => r.type == "DevTestConsumption")).map
    (fun r => (productKey r, r.retailPrice))

/-- Reservation partition (src/api/flatten.py line 55). -/
def reservationRows (records : List NormalizedRecord) : List NormalizedRecord :=
  records.filter (fun r => r.type == "Reservation")

/-- Cell of the pivoted reservation table (src/api/flatten.py lines 57-59):
the retail price of the reservation row with the given product key and
reservation term, or null when that term was never observed for the key.
Pandas pivot rejects duplicate (key, term) pairs; the first matching row
stands for the unique one. -/
def reservationPrice (records : List NormalizedRecord) (key term : String) : Option ℚ :=
  (((reservationRows records).filter
      (fun r => productKey r == key && r.reservationTerm == some term)).head?).map
    (fun r => r.retailPrice)

/-- First-occurrence deduplication by product key, modelling
`drop_duplicates("ProductKey")` (src/api/flatten.py line 70); `seen` carries
the keys already kept. -/
def dropDuplicatesByKey : List NormalizedRecord → List String → List NormalizedRecord
  | [], _ => []
  | r :: rs, seen =>
    if productKey r ∈ seen then dropDuplicatesByKey rs seen
    else r :: dropDuplicatesByKey rs (productKey r :: seen)

/-- Left join of one base row against a price partition on the product key
(the pandas left merges of src/api/flatten.py lines 73-80): one price per
matching partition row, or a single null when the key has no match. -/
def leftJoinPrices (key : String) (partition : List (String × ℚ)) : List (Option ℚ) :=
  match partition.filter (fun kv => kv.1 == key) with
  | [] => [none]
  | kvs => kvs.map (fun kv => some kv.2)

/-- Wide output row of `flatten_prices`. Lean field names stand for the
DataFrame columns: `oneYear` is "1 Year", `oneYearSavings` is "1 Year
savings", `devTestSavings` is "DevTestConsumption savings", and so on. -/
structure WideRow where
  productName : String
  skuName : String
  meterName : String
  meterId : String
  armRegionName : String
  armSkuName : String
  tierMinimumUnits : String
  effectiveEndDate : Option String
  ProductKey : String
  Consumption : Option ℚ
  DevTestConsumption : Option ℚ
  devTestSavings : Option ℚ
  oneYear : Option ℚ
  oneYearSavings : Option ℚ
  threeYears : Option ℚ
  threeYearsSavings : Option ℚ
  fiveYears : Option ℚ
  fiveYearsSavings : Option ℚ
deriving DecidableEq, Repr

/-- Savings column `1 - price / Consumption` (src/api/flatten.py lines 96,
109, 119, 129) with pandas NaN propagation: null whenever either operand is
null. -/
def savingsColumn (price consumption : Option ℚ) : Option ℚ :=
  match price, consumption with
  | some p, some c => some (1 - p / c)
  | _, _ => none

/-- Hourly-equivalent reservation price `price / periods / 730`
(src/api/flatten.py lines 108, 118, 128), null-propagating. -/
def hourlyColumn (price : Option ℚ) (periods : ℚ) : Option ℚ :=
  price.map (fun p => p / periods / 730)

/-- Assembly of one wide row from a base record and its joined consumption
and devtest prices, with the pivoted reservation terms and the derived
hourly and savings columns (src/api/flatten.py lines 93-134). -/
def buildWideRow (records : List NormalizedRecord) (b : NormalizedRecord)
    (consumption devtest : Option ℚ) : WideRow :=
  let key := productKey b
  let y1 := hourlyColumn (reservationPrice records key "1 Year") 12
  let y3 := hourlyColumn (reservationPrice records key "3 Years") 36
  let y5 := hourlyColumn (reservationPrice records key "5 Years") 60
  { productName := b.productName
    skuName := b.skuName
    meterName := b.meterName
    meterId := b.meterId
    armRegionName := b.armRegionName
    armSkuName := b.armSkuName
    tierMinimumUnits := b.tierMinimumUnits
    effectiveEndDate := b.effectiveEndDate
    ProductKey := key
    Consumption := consumption
    DevTestConsumption := devtest
    devTestSavings := savingsColumn devtest consumption
    oneYear := y1
    oneYearSavings := savingsColumn y1 consumption
    threeYears := y3
    threeYearsSavings := savingsColumn y3 consumption
    fiveYears := y5
    fiveYearsSavings := savingsColumn y5 consumption }

/-- Long-to-wide pivot `flatten_prices` (src/api/flatten.py lines 8-136):
deduplicate the base table by product key, left-join the consumption and
devtest partitions, drop every row without a strictly positive Consumption
price (line 91), then attach the pivoted reservation terms and the derived
columns. -/
def flatten_prices (records : List NormalizedRecord) : List WideRow :=
  let base := dropDuplicatesByKey records []
  let merged := base.flatMap (fun b =>
    (leftJoinPrices (productKey b) (consumptionRows records)).flatMap (fun c =>
      (leftJoinPrices (productKey b) (devtestRows records)).map (fun d => (b, c, d))))
  let filtered := merged.filter (fun bcd =>
    match bcd.2.1 with
    | some c => decide (0 < c)
    | none => false)
  filtered.map (fun bcd => buildWideRow records bcd.1 bcd.2.1 bcd.2.2)

theorem flatten_prices_mem (records : List NormalizedRecord) (row : WideRow) :
    row ∈ flatten_prices records ↔
      ∃ b ∈ dropDuplicatesByKey records [],
        ∃ c ∈ leftJoinPrices (productKey b) (consumptionRows records),
          ∃ d ∈ leftJoinPrices (productKey b) (devtestRows records),
            (∃ v, c = some v ∧ 0 < v) ∧ row = buildWideRow records b c d := by
  simp only [flatten_prices, List.mem_map, List.mem_filter, List.mem_flatMap]
  constructor
  · rintro ⟨⟨b, c, d⟩, ⟨⟨b', hb', c', hc', d', hd', heq⟩, hfilt⟩, hrow⟩
    cases heq
    cases c with
    | none => simp at hfilt
    | some v =>
        exact ⟨b, hb', some v, hc', d, hd', ⟨v, rfl, by simpa using hfilt⟩, hrow.symm⟩
  · rintro ⟨b, hb, c, hc, d, hd, ⟨v, rfl, hv⟩, hrow⟩
    exact ⟨(b, some v, d), ⟨⟨b, hb, some v, hc, d, hd, rfl⟩, by simpa using hv⟩, hrow.symm⟩

/-- C2: in any pivot output row whose Consumption column is C, each
reservation term column among "1 Year" (12 periods), "3 Years" (36 periods)
and "5 Years" (60 periods) holds the term total price P divided by
period count times 730, and the matching savings column holds
1 - (P / (periods * 730)) / C, whenever the row's key has a reservation row
for that term; a term never observed for the key leaves both the price and
the savings column null. -/
theorem flatten_reservation_term_columns (records : List NormalizedRecord)
    (row : WideRow) (hrow : row ∈ flatten_prices records) (C : ℚ)
    (hC : row.Consumption = some C) :
    (∀ P : ℚ, reservationPrice records row.ProductKey "1 Year" = some P →
        row.oneYear = some (P / (12 * 730))
        ∧ row.oneYearSavings = some (1 - P / (12 * 730) / C))
    ∧ (reservationPrice records row.ProductKey "1 Year" = none →
        row.oneYear = none ∧ row.oneYearSavings = none)
    ∧ (∀ P : ℚ, reservationPrice records row.ProductKey "3 Years" = some P →
        row.threeYears = some (P / (36 * 730))
        ∧ row.threeYearsSavings = some (1 - P / (36 * 730) / C))
    ∧ (reservationPrice records row.ProductKey "3 Years" = none →
        row.threeYears = none ∧ row.threeYearsSavings = none)
    ∧ (∀ P : ℚ, reservationPrice records row.ProductKey "5 Years" = some P →
        row.fiveYears = some (P / (60 * 730))
        ∧ row.fiveYearsSavings = some (1 - P / (60 * 730) / C))
    ∧ (reservationPrice records row.ProductKey "5 Years" = none →
        row.fiveYears = none ∧ row.fiveYearsSavings = none) := by
  rw [flatten_prices_mem] at hrow
  obtain ⟨b, hb, c, hc, d, hd, ⟨v, rfl, hv⟩, rfl⟩ := hrow
  have hvC : v = C := Option.some.inj hC
  subst hvC
  have hkey : (buildWideRow records b (some v) d).ProductKey = productKey b := rfl
  rw [hkey]
  refine ⟨?_, ?_, ?_, ?_, ?_, ?_⟩
  · intro P hP
    constructor
    · show hourlyColumn (reservationPrice records (productKey b) "1 Year") 12 = _
      rw [hP, hourlyColumn, Option.map_some', div_div]
    · show savingsColumn
        (hourlyColumn (reservationPrice records (productKey b) "1 Year") 12) (some v) = _
      rw [hP, hourlyColumn, Option.map_some', savingsColumn]
      exact congrArg some (by ring)
  · intro hP
    exact ⟨by show hourlyColumn _ 12 = _; rw [hP]; rfl,
      by show savingsColumn (hourlyColumn _ 12) (some v) = _; rw [hP]; rfl⟩
  · intro P hP
    constructor
    · show hourlyColumn (reservationPrice records (productKey b) "3 Years") 36 = _
      rw [hP, hourlyColumn, Option.map_some', div_div]
    · show savingsColumn
        (hourlyColumn (reservationPrice records (productKey b) "3 Years") 36) (some v) = _
      rw [hP, hourlyColumn, Option.map_some', savingsColumn]
      exact congrArg some (by ring)
  · intro hP
    exact ⟨by show hourlyColumn _ 36 = _; rw [hP]; rfl,
      by show savingsColumn (hourlyColumn _ 36) (some v) = _; rw [hP]; rfl⟩
  · intro P hP
    constructor
    · show hourlyColumn (reservationPrice records (productKey b) "5 Years") 60 = _
      rw [hP, hourlyColumn, Option.map_some', div_div]
    · show savingsColumn
        (hourlyColumn (reservationPrice records (productKey b) "5 Years") 60) (some v) = _
      rw [hP, hourlyColumn, Option.map_some', savingsColumn]
      exact congrArg some (by ring)
  · intro hP
    exact ⟨by show hourlyColumn _ 60 = _; rw [hP]; rfl,
      by show savingsColumn (hourlyColumn _ 60) (some v) = _; rw [hP]; rfl⟩

/-- Sample consumption record (price 10) for the pivot witnesses. -/
def consSample : NormalizedRecord where
  productName := "P"
  skuName := "S"
  meterName := "M"
  meterId := "mid"
  armRegionName := "R"
  armSkuName := "AS"
  tierMinimumUnits := "0.0"
  unitPrice := 10
  retailPrice := 10
  type := "Consumption"
  effectiveStartDate := "d"
  effectiveEndDate := none
  reservationTerm := none

/-- Sample one-year reservation record (total price 8760) on the same key. -/
def resSample : NormalizedRecord :=
  { consSample with
      type := "Reservation"
      retailPrice := 8760
      unitPrice := 8760
      reservationTerm := some "1 Year" }

/-- Sample pivot input: one consumption and one reservation row on one key. -/
def pivotSample : List NormalizedRecord := [consSample, resSample]

/-- Witness for C2 at the concrete example of the claim: Consumption 10 and a
one-year reservation total of 8760 yield a 1 Year column of 8760/(12*730) = 1
and a savings column of 1 - 1/10 = 9/10, while the unobserved 3 Years term
leaves both its columns null. -/
theorem flatten_reservation_term_columns_witness :
    ∃ row ∈ flatten_prices pivotSample,
      row.Consumption = some 10
      ∧ row.oneYear = some (8760 / (12 * 730))
      ∧ row.oneYearSavings = some (1 - 8760 / (12 * 730) / 10)
      ∧ (8760 / (12 * 730) : ℚ) = 1
      ∧ (1 - 8760 / (12 * 730) / 10 : ℚ) = 9 / 10
      ∧ row.threeYears = none ∧ row.threeYearsSavings = none := by
  have hrow : buildWideRow pivotSample consSample (some 10) none ∈ flatten_prices pivotSample := by
    rw [flatten_prices_mem]
    exact ⟨consSample, by decide, some 10, by decide, none, by decide,
      ⟨10, rfl, by norm_num⟩, rfl⟩
  obtain ⟨h1, -, -, h3none, -, -⟩ :=
    flatten_reservation_term_columns pivotSample _ hrow 10 rfl
  have hres1 : reservationPrice pivotSample
      (buildWideRow pivotSample consSample (some 10) none).ProductKey "1 Year"
        = some 8760 := by decide
  have hres3 : reservationPrice pivotSample
      (buildWideRow pivotSample consSample (some 10) none).ProductKey "3 Years"
        = none := by decide
  obtain ⟨hy, hs⟩ := h1 8760 hres1
  obtain ⟨h3a, h3b⟩ := h3none hres3
  exact ⟨_, hrow, rfl, hy, hs, by norm_num, by norm_num, h3a, h3b⟩

/-- Consumption prices recorded for one product key (the column values that
the Consumption left merge of src/api/flatten.py line 73 offers that key). -/
def consumptionPricesForKey (records : List NormalizedRecord) (key : String) : List ℚ :=
  ((consumptionRows records).filter (fun kv => kv.1 == key)).map (fun kv => kv.2)

theorem some_mem_leftJoinPrices (key : String) (part : List (String × ℚ)) (v : ℚ) :
    some v ∈ leftJoinPrices key part
      ↔ v ∈ (part.filter (fun kv => kv.1 == key)).map (fun kv => kv.2) := by
  rcases h : part.filter (fun kv => kv.1 == key) with _ | ⟨kv0, kvs⟩
  · simp [leftJoinPrices, h]
  · simp [leftJoinPrices, h]

theorem leftJoinPrices_exists_mem (key : String) (part : List (String × ℚ)) :
    ∃ d, d ∈ leftJoinPrices key part := by
  rcases h : part.filter (fun kv => kv.1 == key) with _ | ⟨kv0, kvs⟩
  · exact ⟨none, by simp [leftJoinPrices, h]⟩
  · exact ⟨some kv0.2, by simp [leftJoinPrices, h]⟩

theorem dropDuplicatesByKey_covers (key : String) :
    ∀ (records : List NormalizedRecord) (seen : List String), key ∉ seen →
      (∃ r ∈ records, productKey r = key) →
      ∃ b ∈ dropDuplicatesByKey records seen, productKey b = key := by
  intro records
  induction records with
  | nil =>
      intro seen _ hex
      obtain ⟨r, hr, -⟩ := hex
      simp at hr
  | cons r rs ih =>
      intro seen hkey hex
      obtain ⟨r0, hr0, hkr0⟩ := hex
      by_cases h : productKey r ∈ seen
      · have hr0rs : r0 ∈ rs := by
          rcases List.mem_cons.mp hr0 with rfl | hmem
          · exact absurd (hkr0 ▸ h) hkey
          · exact hmem
        obtain ⟨b, hb, hkb⟩ := ih seen hkey ⟨r0, hr0rs, hkr0⟩
        exact ⟨b, by simp only [dropDuplicatesByKey, if_pos h]; exact hb, hkb⟩
      · by_cases hkr : productKey r = key
        · refine ⟨r, ?_, hkr⟩
          simp only [dropDuplicatesByKey, if_neg h]
          exact List.mem_cons_self _ _
        · have hkeyn : key ∉ productKey r :: seen := by
            simp only [List.mem_cons]
            rintro (rfl | hk)
            · exact hkr rfl
            · exact hkey hk
          have hr0rs : r0 ∈ rs := by
            rcases List.mem_cons.mp hr0 with rfl | hmem
            · exact absurd hkr0 hkr
            · exact hmem
          obtain ⟨b, hb, hkb⟩ := ih (productKey r :: seen) hkeyn ⟨r0, hr0rs, hkr0⟩
          refine ⟨b, ?_, hkb⟩
          simp only [dropDuplicatesByKey, if_neg h]
          exact List.mem_cons_of_mem _ hb

/-- C4: every pivot output row carries a present, strictly positive
Consumption value; a key all of whose recorded Consumption prices are
non-positive (in particular a key with none at all) contributes no output
row; and a key present in the input with some strictly positive Consumption
price contributes at least one output row. -/
theorem flatten_requires_positive_consumption (records : List NormalizedRecord) :
    (∀ row ∈ flatten_prices records, ∃ c, row.Consumption = some c ∧ 0 < c)
    ∧ (∀ key : String, (∀ p ∈ consumptionPricesForKey records key, ¬ 0 < p) →
        ∀ row ∈ flatten_prices records, row.ProductKey ≠ key)
    ∧ (∀ key : String, (∃ r ∈ records, productKey r = key) →
        (∃ p ∈ consumptionPricesForKey records key, 0 < p) →
        ∃ row ∈ flatten_prices records, row.ProductKey = key) := by
  refine ⟨?_, ?_, ?_⟩
  · intro row hrow
    rw [flatten_prices_mem] at hrow
    obtain ⟨b, hb, c, hc, d, hd, ⟨v, rfl, hv⟩, rfl⟩ := hrow
    exact ⟨v, rfl, hv⟩
  · intro key hneg row hrow hkeyeq
    rw [flatten_prices_mem] at hrow
    obtain ⟨b, hb, c, hc, d, hd, ⟨v, rfl, hv⟩, rfl⟩ := hrow
    have hpk : productKey b = key := hkeyeq
    rw [hpk] at hc
    exact hneg v ((some_mem_leftJoinPrices key _ v).mp hc) hv
  · intro key hexr hexp
    obtain ⟨p, hp, hppos⟩ := hexp
    obtain ⟨b, hb, hkb⟩ := dropDuplicatesByKey_covers key records [] (by simp) hexr
    have hc : some p ∈ leftJoinPrices (productKey b) (consumptionRows records) := by
      rw [hkb]
      exact (some_mem_leftJoinPrices key _ p).mpr hp
    obtain ⟨d, hd⟩ := leftJoinPrices_exists_mem (productKey b) (devtestRows records)
    refine ⟨buildWideRow records b (some p) d, ?_, hkb⟩
    rw [flatten_prices_mem]
    exact ⟨b, hb, some p, hc, d, hd, ⟨p, rfl, hppos⟩, rfl⟩

/-- Sample record whose key has only a zero Consumption price. -/
def zeroConsSample : NormalizedRecord :=
  { consSample with productName := "Q", retailPrice := 0 }

/-- Sample pivot input with a positive-consumption key and a
zero-consumption key. -/
def pivotSample2 : List NormalizedRecord := [consSample, resSample, zeroConsSample]

/-- Witness for C4 at a concrete input: the key with Consumption 0 yields no
row, the key with Consumption 10 yields a row, and every produced row has a
positive Consumption value. -/
theorem flatten_requires_positive_consumption_witness :
    (∀ row ∈ flatten_prices pivotSample2, ∃ c, row.Consumption = some c ∧ 0 < c)
    ∧ (∀ row ∈ flatten_prices pivotSample2, row.ProductKey ≠ productKey zeroConsSample)
    ∧ ∃ row ∈ flatten_prices pivotSample2, row.ProductKey = productKey consSample := by
  obtain ⟨h1, h2, h3⟩ := flatten_requires_positive_consumption pivotSample2
  exact ⟨h1, h2 (productKey zeroConsSample) (by decide),
    h3 (productKey consSample) (by decide) (by decide)⟩

/-- Columns deleted from the caller's table by `flatten_prices`
(src/api/flatten.py lines 63-67). -/
def price_columns_removed : List String :=
  ["type", "reservationTerm", "retailPrice", "unitPrice", "effectiveStartDate"]

/-- Column list of the caller's DataFrame object after `flatten_prices`
returns, embedding the in-place mutations the function applies to its
`export_df` argument before the rebinding on line 70 stops further changes
reaching the caller: an effectiveEndDate column is added when absent
(src/api/flatten.py lines 23-25), a ProductKey column is added (lines 28-30),
and the five price columns are deleted (lines 63-67). -/
def flatten_input_columns_after (cols : List String) : List String :=
  let cols1 := if "effectiveEndDate" ∈ cols then cols else cols ++ ["effectiveEndDate"]
  let cols2 := cols1 ++ ["ProductKey"]
  cols2.filter (fun c => !(price_columns_removed.contains c))

/-- Column list of the normalized-record table a caller passes to
`flatten_prices` (the fields of `NormalizedRecord`). -/
def normalized_columns : List String :=
  ["productName", "skuName", "meterName", "meterId", "armRegionName", "armSkuName",
   "tierMinimumUnits", "unitPrice", "retailPrice", "type", "effectiveStartDate",
   "effectiveEndDate", "reservationTerm"]

/-- Counterexample to C8: on the standard normalized-record table the caller's
column list after `flatten_prices` differs from the one before, so the pivot
does not leave the input table unchanged. -/
theorem flatten_mutates_callers_table :
    flatten_input_columns_after normalized_columns ≠ normalized_columns := by
  decide

/-- C8 as amended: the pivot output `flatten_prices records` is a pure
function of the input records (by construction of the embedding), but the
caller's table is mutated in place: for any input column list not yet
carrying the added columns, the columns after the call are exactly the input
columns minus the five price columns, followed by the added effectiveEndDate
and ProductKey columns. -/
theorem flatten_input_mutation (cols : List String)
    (heed : "effectiveEndDate" ∉ cols) (hpk : "ProductKey" ∉ cols) :
    flatten_input_columns_after cols
      = cols.filter (fun c => !(price_columns_removed.contains c))
        ++ ["effectiveEndDate", "ProductKey"] := by
  simp only [flatten_input_columns_after, if_neg heed, List.append_assoc,
    List.filter_append]
  have h1 : List.filter (fun c => !(price_columns_removed.contains c))
      ["effectiveEndDate"] = ["effectiveEndDate"] := by decide
  have h2 : List.filter (fun c => !(price_columns_removed.contains c))
      ["ProductKey"] = ["ProductKey"] := by decide
  rw [h1, h2]
  rfl

/-- Witness for the amended C8 at a concrete column list: retailPrice is
removed and the two bookkeeping columns are appended. -/
theorem flatten_input_mutation_witness :
    flatten_input_columns_after ["productName", "retailPrice"]
      = ["productName", "effectiveEndDate", "ProductKey"] := by
  rw [flatten_input_mutation ["productName", "retailPrice"] (by decide) (by decide)]
  decide

/-- Row view of a prices DataFrame as consumed by `calculate_fx_rates`
(src/api/azureapi.py lines 229-283): the three match-key fields and the
retail price; a pandas NaN price is `none`. -/
structure FxRec where
  armSkuName : String
  armRegionName : String
  meterId : String
  retailPrice : Option ℚ
deriving DecidableEq, Repr

/-- Output row of `calculate_fx_rates` (src/api/azureapi.py lines 286-291). -/
structure FxEstimate where
  currency : String
  fxRate : ℚ
deriving DecidableEq, Repr

/-- Match key `armSkuName|armRegionName|meterId` (src/api/azureapi.py
lines 229-235 and 254-260). -/
def matchKey (r : FxRec) : String :=
  r.armSkuName ++ "|" ++ r.armRegionName ++ "|" ++ r.meterId

/-- Inner join of the base and target tables on the match key
(src/api/azureapi.py lines 263-268), in pandas order: base rows in order,
each paired with its matching target rows in order. -/
def joinedPairs (base_recs target_recs : List FxRec) : List (FxRec × FxRec) :=
  base_recs.flatMap (fun b =>
    (target_recs.filter (fun t => matchKey t == matchKey b)).map (fun t => (b, t)))

/-- Joined pairs whose two retail prices are both present and strictly
positive (src/api/azureapi.py lines 272-277). -/
def validPairs (base_recs target_recs : List FxRec) : List (FxRec × FxRec) :=
  (joinedPairs base_recs target_recs).filter (fun bt =>
    match bt.1.retailPrice, bt.2.retailPrice with
    | some pb, some pt => decide (0 < pb) && decide (0 < pt)
    | _, _ => false)

/-- FX rate derived from one target currency's table (src/api/azureapi.py
lines 249-291): none when the target table is empty, when no product
matches, or when no matched pair has two positive prices; otherwise the
target price of the first valid pair divided by its base price. -/
def processTarget (base_recs target_recs : List FxRec) : Option ℚ :=
  if target_recs.length = 0 then none
  else
    match (validPairs base_recs target_recs).head? with
    | some bt => some (bt.2.retailPrice.getD 0 / bt.1.retailPrice.getD 0)
    | none => none

/-- Per-currency body of the loop of `calculate_fx_rates`
(src/api/azureapi.py lines 239-307): a fetch failure is caught inside the
loop and yields no entry; otherwise the currency's derived rate, when any,
is tagged with the currency. -/
def fxPerTarget (fetch : String → Except String (List FxRec))
    (base_recs : List FxRec) (target_currency : String) : Option FxEstimate :=
  match fetch target_currency with
  | .error _ => none
  | .ok target_recs =>
      (processTarget base_recs target_recs).map
        (fun rate => { currency := target_currency, fxRate := rate })

/-- FX estimator `calculate_fx_rates` (src/api/azureapi.py lines 181-313)
over an abstract per-currency fetch+normalize function. Returns the result
(the error when the uncaught base fetch fails) together with the list of
currencies fetched in order: the base currency alone when its fetch fails or
its table is empty, else the base currency followed by every target
currency. -/
def calculate_fx_rates (fetch : String → Except String (List FxRec))
    (base_currency : String) (target_currencies : List String) :
    Except String (List FxEstimate) × List String :=
  match fetch base_currency with
  | .error e => (.error e, [base_currency])
  | .ok base_recs =>
    if base_recs.length = 0 then (.ok [], [base_currency])
    else
      (.ok (target_currencies.filterMap (fxPerTarget fetch base_recs)),
        base_currency :: target_currencies)

theorem fxPerTarget_currency (fetch : String → Except String (List FxRec))
    (base_recs : List FxRec) (tc : String) (est : FxEstimate)
    (h : fxPerTarget fetch base_recs tc = some est) : est.currency = tc := by
  unfold fxPerTarget at h
  rcases hf : fetch tc with e | trs
  · rw [hf] at h
    simp at h
  · rw [hf] at h
    simp only [] at h
    rcases hp : processTarget base_recs trs with _ | rate
    · rw [hp] at h
      simp at h
    · rw [hp, Option.map_some'] at h
      cases h
      rfl

theorem map_filterMap_sublist {α β : Type} (f : α → Option β) (g : β → α)
    (hfg : ∀ a b, f a = some b → g b = a) :
    ∀ l : List α, List.Sublist ((l.filterMap f).map g) l := by
  intro l
  induction l with
  | nil => simp
  | cons x xs ih =>
      rcases hfx : f x with _ | b
      · simp only [List.filterMap_cons, hfx]
        exact ih.cons x
      · simp only [List.filterMap_cons, hfx, List.map_cons, hfg x b hfx]
        exact ih.cons₂ x

theorem validPairs_head_spec (base_recs target_recs : List FxRec) (bt : FxRec × FxRec)
    (h : (validPairs base_recs target_recs).head? = some bt) :
    ∃ pb pt : ℚ, bt.1.retailPrice = some pb ∧ bt.2.retailPrice = some pt
      ∧ 0 < pb ∧ 0 < pt := by
  have hmem : bt ∈ validPairs base_recs target_recs := by
    rcases hv : validPairs base_recs target_recs with _ | ⟨bt0, rest⟩
    · rw [hv] at h
      simp at h
    · rw [hv] at h
      rw [List.head?_cons] at h
      cases h
      exact List.mem_cons_self _ _
  have hcond := (List.mem_filter.mp hmem).2
  rcases hpb : bt.1.retailPrice with _ | pb
  · rw [hpb] at hcond
    simp at hcond
  · rcases hpt : bt.2.retailPrice with _ | pt
    · rw [hpb, hpt] at hcond
      simp at hcond
    · rw [hpb, hpt] at hcond
      simp only [Bool.and_eq_true, decide_eq_true_eq] at hcond
      exact ⟨pb, pt, rfl, rfl, hcond.1, hcond.2⟩

theorem processTarget_some (base_recs target_recs : List FxRec) (rate : ℚ)
    (h : processTarget base_recs target_recs = some rate) :
    ∃ bt, (validPairs base_recs target_recs).head? = some bt
      ∧ ∃ pb pt : ℚ, bt.1.retailPrice = some pb ∧ bt.2.retailPrice = some pt
          ∧ 0 < pb ∧ 0 < pt ∧ rate = pt / pb := by
  unfold processTarget at h
  by_cases hlen : target_recs.length = 0
  · rw [if_pos hlen] at h
    simp at h
  · rw [if_neg hlen] at h
    rcases hh : (validPairs base_recs target_recs).head? with _ | bt
    · rw [hh] at h
      simp at h
    · rw [hh] at h
      simp only [] at h
      obtain ⟨pb, pt, h1, h2, h3, h4⟩ := validPairs_head_spec _ _ bt hh
      refine ⟨bt, rfl, pb, pt, h1, h2, h3, h4, ?_⟩
      cases h
      rw [h1, h2]
      rfl

theorem processTarget_eq_none (base_recs trs : List FxRec)
    (h : (validPairs base_recs trs).head? = none) :
    processTarget base_recs trs = none := by
  unfold processTarget
  by_cases hl : trs.length = 0
  · rw [if_pos hl]
  · rw [if_neg hl, h]

/-- C5: when the base fetch yields a non-empty table, the result is a
success whose currencies form a subsequence of the input target-currency
list (input order, skipped currencies excluded); every emitted estimate
comes from the first valid pair of the inner join of its own currency
against the base on the match key, with both prices present and positive
and fxRate equal to target price over base price; conversely every target
currency whose fetch yields a non-empty table with a first valid joined
pair does emit an entry whose fxRate is that pair's target price divided by
its base price; and a target currency with no records or no valid joined
pair contributes no entry. -/
theorem fx_per_currency_spec (fetch : String → Except String (List FxRec))
    (base_currency : String) (target_currencies : List String)
    (base_recs : List FxRec) (hfetch : fetch base_currency = .ok base_recs)
    (hne : base_recs.length ≠ 0) :
    ∃ results : List FxEstimate,
      (calculate_fx_rates fetch base_currency target_currencies).1 = .ok results
      ∧ List.Sublist (results.map (fun est => est.currency)) target_currencies
      ∧ (∀ est ∈ results, ∃ target_recs : List FxRec,
          fetch est.currency = .ok target_recs
          ∧ ∃ bt, (validPairs base_recs target_recs).head? = some bt
              ∧ ∃ pb pt : ℚ, bt.1.retailPrice = some pb ∧ bt.2.retailPrice = some pt
                  ∧ 0 < pb ∧ 0 < pt ∧ est.fxRate = pt / pb)
      ∧ (∀ tc ∈ target_currencies, ∀ target_recs : List FxRec,
          fetch tc = .ok target_recs → target_recs ≠ [] →
          ∀ bt, (validPairs base_recs target_recs).head? = some bt →
          ∃ est ∈ results, est.currency = tc
            ∧ ∀ pb pt : ℚ, bt.1.retailPrice = some pb → bt.2.retailPrice = some pt →
                est.fxRate = pt / pb)
      ∧ (∀ tc ∈ target_currencies,
          (fetch tc = .ok [] ∨ ∃ target_recs : List FxRec, fetch tc = .ok target_recs
              ∧ (validPairs base_recs target_recs).head? = none) →
          ∀ est ∈ results, est.currency ≠ tc) := by
  refine ⟨target_currencies.filterMap (fxPerTarget fetch base_recs), ?_, ?_, ?_, ?_, ?_⟩
  · unfold calculate_fx_rates
    rw [hfetch]
    simp only []
    rw [if_neg hne]
  · exact map_filterMap_sublist _ _ (fun a b => fxPerTarget_currency fetch base_recs a b) _
  · intro est hest
    obtain ⟨tc, htc, hsome⟩ := List.mem_filterMap.mp hest
    have hcur : est.currency = tc := fxPerTarget_currency _ _ _ _ hsome
    unfold fxPerTarget at hsome
    rcases hf : fetch tc with e | trs
    · rw [hf] at hsome
      simp at hsome
    · rw [hf] at hsome
      simp only [] at hsome
      rcases hp : processTarget base_recs trs with _ | rate
      · rw [hp] at hsome
        simp at hsome
      · rw [hp, Option.map_some'] at hsome
        obtain ⟨bt, hh, pb, pt, h1, h2, h3, h4, hr⟩ := processTarget_some _ _ rate hp
        refine ⟨trs, by rw [hcur]; exact hf, bt, hh, pb, pt, h1, h2, h3, h4, ?_⟩
        cases hsome
        exact hr
  · intro tc htc trs hok hnil bt hh
    have hlen : trs.length ≠ 0 := fun h => hnil (List.length_eq_zero.mp h)
    have hp : processTarget base_recs trs
        = some (bt.2.retailPrice.getD 0 / bt.1.retailPrice.getD 0) := by
      unfold processTarget
      rw [if_neg hlen, hh]
    have hsome : fxPerTarget fetch base_recs tc
        = some { currency := tc,
                 fxRate := bt.2.retailPrice.getD 0 / bt.1.retailPrice.getD 0 } := by
      unfold fxPerTarget
      rw [hok]
      simp only []
      rw [hp, Option.map_some']
    refine ⟨_, List.mem_filterMap.mpr ⟨tc, htc, hsome⟩, rfl, ?_⟩
    intro pb pt h1 h2
    show bt.2.retailPrice.getD 0 / bt.1.retailPrice.getD 0 = pt / pb
    rw [h1, h2]
    rfl
  · intro tc htc hcond est hest hceq
    obtain ⟨tc', htc', hsome⟩ := List.mem_filterMap.mp hest
    have hcur : est.currency = tc' := fxPerTarget_currency _ _ _ _ hsome
    have heq : tc' = tc := by rw [← hcur, hceq]
    subst heq
    rcases hcond with hempty | ⟨trs, hok, hnone⟩
    · unfold fxPerTarget at hsome
      rw [hempty] at hsome
      simp [processTarget] at hsome
    · unfold fxPerTarget at hsome
      rw [hok] at hsome
      simp only [] at hsome
      rw [processTarget_eq_none _ _ hnone] at hsome
      simp at hsome

/-- Sample base-currency record (price 10) for the FX witnesses. -/
def fxBaseRec : FxRec where
  armSkuName := "A"
  armRegionName := "R"
  meterId := "m"
  retailPrice := some 10

/-- Sample target-currency record (price 8.5 = 17/2) on the same key. -/
def fxTargetRec : FxRec := { fxBaseRec with retailPrice := some (17 / 2) }

/-- Concrete per-currency fetch for the FX witnesses: a base table for USD,
a matching table for EUR, an empty table for GBP, an error elsewhere. -/
def fxFetchSample : String → Except String (List FxRec) := fun c =>
  if c = "USD" then .ok [fxBaseRec]
  else if c = "EUR" then .ok [fxTargetRec]
  else if c = "GBP" then .ok []
  else .error "network error"

theorem fxSample_validPairs :
    validPairs [fxBaseRec] [fxTargetRec] = [(fxBaseRec, fxTargetRec)] := by
  norm_num [validPairs, joinedPairs, matchKey, fxBaseRec, fxTargetRec]

/-- Witness for C5 at the concrete fetch: base price 10 and target price
17/2 = 8.5 on the same key make the estimator emit an EUR entry whose
fxRate is (17/2)/10 = 17/20 = 0.85, while GBP (empty table) gets no entry
and the output currencies follow the input order. -/
theorem fx_per_currency_spec_witness :
    ∃ results : List FxEstimate,
      (calculate_fx_rates fxFetchSample "USD" ["EUR", "GBP"]).1 = .ok results
      ∧ List.Sublist (results.map (fun est => est.currency)) ["EUR", "GBP"]
      ∧ (∃ est ∈ results, est.currency = "EUR" ∧ est.fxRate = 17 / 2 / 10
          ∧ est.fxRate = 17 / 20)
      ∧ (∀ est ∈ results, est.currency ≠ "GBP") := by
  obtain ⟨results, hres, hsub, hprov, hemit, hskip⟩ :=
    fx_per_currency_spec fxFetchSample "USD" ["EUR", "GBP"] [fxBaseRec] rfl (by decide)
  obtain ⟨est, hmem, hcur, hrate⟩ := hemit "EUR" (by simp) [fxTargetRec] rfl
    (by simp) (fxBaseRec, fxTargetRec) (by simp [fxSample_validPairs])
  have h8510 : est.fxRate = 17 / 2 / 10 := hrate 10 (17 / 2) rfl rfl
  refine ⟨results, hres, hsub, ⟨est, hmem, hcur, h8510, ?_⟩, ?_⟩
  · rw [h8510]
    norm_num
  · exact hskip "GBP" (by simp) (Or.inl rfl)

theorem filterMap_skip_failed {α β : Type} [DecidableEq α]
    (f : α → Option β) (tc : α) (hf : f tc = none) :
    ∀ l : List α, l.filterMap f = (l.filter (fun c => c != tc)).filterMap f := by
  intro l
  induction l with
  | nil => rfl
  | cons x xs ih =>
      by_cases hx : x = tc
      · subst hx
        simp only [List.filterMap_cons, hf, List.filter_cons, bne_self_eq_false,
          Bool.false_eq_true, if_false]
        exact ih
      · have hbne : (x != tc) = true := bne_iff_ne.mpr hx
        simp only [List.filterMap_cons, List.filter_cons, hbne, if_true]
        rcases hfx : f x with _ | b
        · simp only [List.filterMap_cons, hfx]
          exact ih
        · simp only [List.filterMap_cons, hfx]
          rw [ih]

/-- C6: a fetch failure for one target currency is caught and only skips
that currency, leaving the result of the remaining currencies unchanged and
successful; and a base currency whose table is empty makes the estimator
return an empty successful result immediately, with the base currency the
only currency fetched. -/
theorem fx_failure_isolation (fetch : String → Except String (List FxRec))
    (base_currency : String) (target_currencies : List String) :
    (fetch base_currency = .ok [] →
        calculate_fx_rates fetch base_currency target_currencies
          = (.ok [], [base_currency]))
    ∧ (∀ (base_recs : List FxRec) (tc : String) (e : String),
        fetch base_currency = .ok base_recs → base_recs.length ≠ 0 →
        fetch tc = .error e →
        (calculate_fx_rates fetch base_currency target_currencies).1
            = (calculate_fx_rates fetch base_currency
                (target_currencies.filter (fun c => c != tc))).1
          ∧ ∃ results, (calculate_fx_rates fetch base_currency target_currencies).1
              = .ok results ∧ ∀ est ∈ results, est.currency ≠ tc) := by
  constructor
  · intro hbase
    unfold calculate_fx_rates
    rw [hbase]
    simp only [List.length_nil]
    rw [if_true]
  · intro base_recs tc e hbase hne herr
    have hnone : fxPerTarget fetch base_recs tc = none := by
      unfold fxPerTarget
      rw [herr]
    have hcalc : (calculate_fx_rates fetch base_currency target_currencies).1
        = .ok (target_currencies.filterMap (fxPerTarget fetch base_recs)) := by
      unfold calculate_fx_rates
      rw [hbase]
      simp only []
      rw [if_neg hne]
    have hcalc2 : (calculate_fx_rates fetch base_currency
        (target_currencies.filter (fun c => c != tc))).1
        = .ok ((target_currencies.filter (fun c => c != tc)).filterMap
            (fxPerTarget fetch base_recs)) := by
      unfold calculate_fx_rates
      rw [hbase]
      simp only []
      rw [if_neg hne]
    refine ⟨?_, target_currencies.filterMap (fxPerTarget fetch base_recs), hcalc, ?_⟩
    · rw [hcalc, hcalc2, filterMap_skip_failed _ tc hnone]
    · intro est hest hceq
      obtain ⟨tc', htc', hsome⟩ := List.mem_filterMap.mp hest
      have hcur : est.currency = tc' := fxPerTarget_currency _ _ _ _ hsome
      have heq : tc' = tc := by rw [← hcur, hceq]
      subst heq
      rw [hnone] at hsome
      cases hsome

/-- Concrete fetch whose base-currency table is empty. -/
def fxEmptyBaseFetch : String → Except String (List FxRec) := fun c =>
  if c = "USD" then .ok [] else .error "unreached"

/-- Witness for C6: an empty USD base table returns an empty success after
fetching only USD; and with the concrete fetch, the failing currency CHF is
skipped while EUR is still processed, the result matching the run without
CHF and containing no CHF entry. -/
theorem fx_failure_isolation_witness :
    calculate_fx_rates fxEmptyBaseFetch "USD" ["EUR", "GBP"] = (.ok [], ["USD"])
    ∧ ((calculate_fx_rates fxFetchSample "USD" ["CHF", "EUR"]).1
        = (calculate_fx_rates fxFetchSample "USD"
            (["CHF", "EUR"].filter (fun c => c != "CHF"))).1
      ∧ ∃ results, (calculate_fx_rates fxFetchSample "USD" ["CHF", "EUR"]).1
          = .ok results ∧ ∀ est ∈ results, est.currency ≠ "CHF") := by
  obtain ⟨h1, -⟩ := fx_failure_isolation fxEmptyBaseFetch "USD" ["EUR", "GBP"]
  obtain ⟨-, h2⟩ := fx_failure_isolation fxFetchSample "USD" ["CHF", "EUR"]
  exact ⟨h1 (by decide), h2 [fxBaseRec] "CHF" "network error" (by decide) (by decide)
    (by decide)⟩

/-- Counterexample to C10: with the duplicate target-currency list
["EUR", "EUR"] the estimator emits two output rows for EUR, since the loop
samples one pair per list entry, not per distinct currency. -/
theorem fx_duplicate_currency_rows :
    ∃ results, (calculate_fx_rates fxFetchSample "USD" ["EUR", "EUR"]).1 = .ok results
      ∧ (results.filter (fun est => est.currency == "EUR")).length = 2 := by
  have hbase : fxFetchSample "USD" = .ok [fxBaseRec] := rfl
  have hfetchEUR : fxFetchSample "EUR" = .ok [fxTargetRec] := rfl
  have hv : validPairs [fxBaseRec] [fxTargetRec] = [(fxBaseRec, fxTargetRec)] := by
    norm_num [validPairs, joinedPairs, matchKey, fxBaseRec, fxTargetRec]
  have hpt : processTarget [fxBaseRec] [fxTargetRec]
      = some (fxTargetRec.retailPrice.getD 0 / fxBaseRec.retailPrice.getD 0) := by
    unfold processTarget
    rw [if_neg (by decide), hv]
    rfl
  have hEUR : fxPerTarget fxFetchSample [fxBaseRec] "EUR"
      = some { currency := "EUR",
               fxRate := fxTargetRec.retailPrice.getD 0 / fxBaseRec.retailPrice.getD 0 } := by
    unfold fxPerTarget
    rw [hfetchEUR]
    simp only []
    rw [hpt, Option.map_some']
  refine ⟨["EUR", "EUR"].filterMap (fxPerTarget fxFetchSample [fxBaseRec]), ?_, ?_⟩
  · unfold calculate_fx_rates
    rw [hbase]
    simp only []
    rw [if_neg (by decide)]
  · simp only [List.filterMap_cons, hEUR, List.filterMap_nil]
    simp

theorem fx_count_le (f : String → Option FxEstimate)
    (hf : ∀ a b, f a = some b → b.currency = a) (c : String) :
    ∀ l : List String,
      ((l.filterMap f).filter (fun est => est.currency == c)).length
        ≤ (l.filter (fun a => a == c)).length := by
  intro l
  induction l with
  | nil => simp
  | cons x xs ih =>
      rcases hfx : f x with _ | b
      · simp only [List.filterMap_cons, hfx, List.filter_cons]
        cases hxc : (x == c)
        · simpa using ih
        · simp only [eq_self_iff_true, if_true]
          exact le_trans ih (by simp)
      · have hbc : (b.currency == c) = (x == c) := by rw [hf x b hfx]
        simp only [List.filterMap_cons, hfx, List.filter_cons, hbc]
        cases hxc : (x == c)
        · simpa using ih
        · simp only [eq_self_iff_true, if_true, List.length_cons]
          omega

theorem nodup_filter_beq_le_one {l : List String} (hl : l.Nodup) (c : String) :
    (l.filter (fun a => a == c)).length ≤ 1 := by
  induction l with
  | nil => simp
  | cons x xs ih =>
      rw [List.filter_cons]
      rcases List.nodup_cons.mp hl with ⟨hx, hxs⟩
      cases hxc : (x == c)
      · simpa using ih hxs
      · have hxc' : x = c := by simpa using hxc
        subst hxc'
        have hnil : xs.filter (fun a => a == x) = [] := by
          rw [List.filter_eq_nil_iff]
          intro a ha
          simp only [beq_iff_eq]
          intro h
          exact hx (h ▸ ha)
        simp [hnil]

/-- C10 as amended: every row of a successful estimator result has a
strictly positive fxRate (each rate is a ratio of two prices filtered to be
positive); and provided the target-currency list has no duplicate entries,
each currency contributes at most one output row. (With a duplicated entry
the loop emits one row per entry, see the counterexample.) -/
theorem fx_rates_positive_and_unique (fetch : String → Except String (List FxRec))
    (base_currency : String) (target_currencies : List String)
    (results : List FxEstimate)
    (hres : (calculate_fx_rates fetch base_currency target_currencies).1 = .ok results) :
    (∀ est ∈ results, 0 < est.fxRate)
    ∧ (target_currencies.Nodup → ∀ c : String,
        (results.filter (fun est => est.currency == c)).length ≤ 1) := by
  rcases hb : fetch base_currency with e | base_recs
  · unfold calculate_fx_rates at hres
    rw [hb] at hres
    simp at hres
  · unfold calculate_fx_rates at hres
    rw [hb] at hres
    simp only [] at hres
    by_cases hlen : base_recs.length = 0
    · rw [if_pos hlen] at hres
      simp only [] at hres
      have hempty : results = [] := by
        injection hres with h
        exact h.symm
      subst hempty
      simp
    · rw [if_neg hlen] at hres
      simp only [] at hres
      have hresults : results = target_currencies.filterMap (fxPerTarget fetch base_recs) := by
        injection hres with h
        exact h.symm
      subst hresults
      constructor
      · intro est hest
        obtain ⟨tc, htc, hsome⟩ := List.mem_filterMap.mp hest
        unfold fxPerTarget at hsome
        rcases hf : fetch tc with e | trs
        · rw [hf] at hsome
          simp at hsome
        · rw [hf] at hsome
          simp only [] at hsome
          rcases hp : processTarget base_recs trs with _ | rate
          · rw [hp] at hsome
            simp at hsome
          · rw [hp, Option.map_some'] at hsome
            obtain ⟨bt, hh, pb, pt, h1, h2, h3, h4, hr⟩ := processTarget_some _ _ rate hp
            cases hsome
            show 0 < rate
            rw [hr]
            exact div_pos h4 h3
      · intro hnodup c
        exact le_trans
          (fx_count_le _ (fun a b => fxPerTarget_currency fetch base_recs a b) c
            target_currencies)
          (nodup_filter_beq_le_one hnodup c)

/-- Witness for the amended C10 at the concrete fetch: the successful result
for targets ["EUR", "GBP"] has only positive rates and at most one row per
currency. -/
theorem fx_rates_positive_and_unique_witness :
    ∃ results,
      (calculate_fx_rates fxFetchSample "USD" ["EUR", "GBP"]).1 = .ok results
      ∧ (∀ est ∈ results, 0 < est.fxRate)
      ∧ ∀ c : String, (results.filter (fun est => est.currency == c)).length ≤ 1 := by
  have hres : (calculate_fx_rates fxFetchSample "USD" ["EUR", "GBP"]).1
      = .ok (["EUR", "GBP"].filterMap (fxPerTarget fxFetchSample [fxBaseRec])) := by
    unfold calculate_fx_rates
    rw [show fxFetchSample "USD" = .ok [fxBaseRec] from rfl]
    simp only []
    rw [if_neg (by decide)]
  obtain ⟨h1, h2⟩ := fx_rates_positive_and_unique fxFetchSample "USD" ["EUR", "GBP"] _ hres
  exact ⟨_, hres, h1, h2 (by decide)⟩
